import Mathlib

set_option maxHeartbeats 1000000
set_option maxRecDepth 4000

/- Shallow embedding of src/src/logger.py: an asyncio logger with a bounded
   queue, drop accounting, and periodic overflow reporting.

   Modelling conventions:
   * `LoggerStats` mirrors the dataclass; the `threading.Lock` field is not
     modelled because every counter method in the source runs entirely under
     the lock, so each one is a single atomic state transformation here.
   * The `asyncio.Queue[str | None]` is a FIFO `List (Option String)` with
     `none` as the close sentinel.  `put_nowait` raises `QueueFull` exactly
     when `0 < maxsize ∧ maxsize ≤ length` (asyncio `Queue.full`).
   * The handler is modelled by the trace `handled` of the string arguments
     it receives, in call order; `logger.warning` by the trace `warnings`.
   * Concurrency: `log` is synchronous (no await inside), the consumer body
     between awaits is synchronous, and the sentinel drain loop contains no
     await, so each of these runs atomically on the event loop.  An
     execution is a sequence of atomic events `Ev`, interleaved
     arbitrarily; `run` folds the events over the state. -/

structure LoggerStats where
  messages_enqueued : Nat
  messages_processed : Nat
  messages_dropped : Nat
deriving Repr, DecidableEq

def LoggerStats.record_drop (s : LoggerStats) : LoggerStats :=
  { s with messages_dropped := s.messages_dropped + 1 }

def LoggerStats.record_enqueue (s : LoggerStats) : LoggerStats :=
  { s with messages_enqueued := s.messages_enqueued + 1 }

def LoggerStats.record_processed (s : LoggerStats) : LoggerStats :=
  { s with messages_processed := s.messages_processed + 1 }

/- `get_and_reset_drops` reads the current drop counter, resets it to zero
   and returns the pre-reset value (all under the lock, hence atomic). -/
def LoggerStats.get_and_reset_drops (s : LoggerStats) : Nat × LoggerStats :=
  (s.messages_dropped, { s with messages_dropped := 0 })

/- Module-level constants of logger.py.  `OVERFLOW_REPORT_INTERVAL = 5.0`
   seconds is exactly representable, modelled as the rational 5. -/
def DEFAULT_QUEUE_SIZE : Nat := 10000

def OVERFLOW_REPORT_INTERVAL : Rat := 5

/- The parameter names of `AsyncLogger.__init__` (excluding `self`), in
   order, from the source signature
   `def __init__(self, maxsize: int = DEFAULT_QUEUE_SIZE,
                 handler: Callable[[str], None] | None = None)`. -/
def init_param_names : List String := ["maxsize", "handler"]

/- Runtime state of an `AsyncLogger`.  `consumerDone` records whether the
   `_consume` task has exited its loop (via the close sentinel);
   `handled` and `warnings` are the observable output traces. -/
structure AsyncLogger where
  maxsize : Nat
  queue : List (Option String)
  stats : LoggerStats
  running : Bool
  consumerDone : Bool
  handled : List String
  warnings : List String
deriving Repr, DecidableEq

/- `AsyncLogger.__init__`: empty queue of the given capacity, zeroed stats,
   not running. -/
def AsyncLogger.init (maxsize : Nat) : AsyncLogger :=
  { maxsize := maxsize
    queue := []
    stats := ⟨0, 0, 0⟩
    running := false
    consumerDone := false
    handled := []
    warnings := [] }

/- asyncio `Queue.full()`: `False` when `maxsize <= 0`, else
   `qsize() >= maxsize`.  `put_nowait` raises `QueueFull` iff this holds. -/
def AsyncLogger.queue_full (st : AsyncLogger) : Bool :=
  decide (0 < st.maxsize ∧ st.maxsize ≤ st.queue.length)

/- `AsyncLogger.log`: try `put_nowait(message)` then `record_enqueue()`;
   on `QueueFull`, `record_drop()`.  Total: never raises, never blocks. -/
def AsyncLogger.log (st : AsyncLogger) (message : String) : AsyncLogger :=
  if st.queue_full then
    { st with stats := st.stats.record_drop }
  else
    { st with queue := st.queue ++ [some message]
              stats := st.stats.record_enqueue }

/- The synchronous drain loop of `_consume` after the sentinel:
   `while not empty: msg = get_nowait(); if msg is not None:
      handler(msg); record_processed()`.
   Returns the handler trace extension and the updated stats. -/
def drainAll (handled : List String) (stats : LoggerStats) :
    List (Option String) → List String × LoggerStats
  | [] => (handled, stats)
  | some m :: rest => drainAll (handled ++ [m]) stats.record_processed rest
  | none :: rest => drainAll handled stats rest

/- One iteration of the `_consume` loop.  If the task has already exited
   the loop it does nothing; on an empty queue `await get()` suspends (no
   state change); a real message is dispatched to the handler and counted;
   the sentinel triggers the atomic drain and exits the loop. -/
def AsyncLogger.consumeStep (st : AsyncLogger) : AsyncLogger :=
  if st.consumerDone then st
  else
    match st.queue with
    | [] => st
    | some m :: rest =>
        { st with queue := rest
                  handled := st.handled ++ [m]
                  stats := st.stats.record_processed }
    | none :: rest =>
        let p := drainAll st.handled st.stats rest
        { st with queue := []
                  handled := p.1
                  stats := p.2
                  consumerDone := true }

/- The warning string of `_emit_overflow_report`, from the f-string
   `f"⚠️ Logger overflow: {drops} messages dropped due to buffer full"`. -/
def overflowWarning (drops : Nat) : String :=
  "⚠️ Logger overflow: " ++ toString drops ++ " messages dropped due to buffer full"

/- `_emit_overflow_report`: drain the drop counter; warn iff positive. -/
def AsyncLogger.emit_overflow_report (st : AsyncLogger) : AsyncLogger :=
  let p := st.stats.get_and_reset_drops
  if 0 < p.1 then
    { st with stats := p.2
              warnings := st.warnings ++ [overflowWarning p.1] }
  else
    { st with stats := p.2 }

/- The first two lines of `stop()`: `self._running = False` followed by
   `await self._queue.put(None)`.  The blocking `put` always succeeds
   eventually; the event is placed in the trace at the point where the
   sentinel actually enters the queue. -/
def AsyncLogger.putSentinel (st : AsyncLogger) : AsyncLogger :=
  { st with running := false, queue := st.queue ++ [none] }

/- `start()`: mark running and spawn the two tasks (the tasks themselves
   appear in the trace as `consume` / `report` events). -/
def AsyncLogger.startMark (st : AsyncLogger) : AsyncLogger :=
  { st with running := true }

/- The atomic events of an execution: a producer `log(m)` call, one
   consumer-loop iteration, the sentinel enqueue done by `stop()`, one
   reporter cycle (`_emit_overflow_report`, reached from the periodic
   `_report_overflow` wake-up or from the final report in `stop()`), and
   `start()`. -/
inductive Ev where
  | log (m : String)
  | consume
  | sentinel
  | report
  | start
deriving Repr, DecidableEq

def step (st : AsyncLogger) : Ev → AsyncLogger
  | Ev.log m => st.log m
  | Ev.consume => st.consumeStep
  | Ev.sentinel => st.putSentinel
  | Ev.report => st.emit_overflow_report
  | Ev.start => st.startMark

def run : AsyncLogger → List Ev → AsyncLogger
  | st, [] => st
  | st, e :: rest => run (step st e) rest

/- The real (non-sentinel) messages of a queue, in order. -/
def realMsgs (q : List (Option String)) : List String := q.filterMap id

/- 1 for a `log()` call, 0 for any other event. -/
def logCount1 : Ev → Nat
  | Ev.log _ => 1
  | _ => 0

/- Number of `log()` calls in a trace. -/
def countLogs : List Ev → Nat
  | [] => 0
  | e :: rest => logCount1 e + countLogs rest

/- The message a single event successfully enqueues ([] if none). -/
def logAccept (st : AsyncLogger) : Ev → List String
  | Ev.log m => if st.queue_full then [] else [m]
  | _ => []

/- The successfully enqueued messages of a trace, in enqueue order. -/
def goodLogs : AsyncLogger → List Ev → List String
  | _, [] => []
  | st, e :: rest => logAccept st e ++ goodLogs (step st e) rest

/- The value `get_and_reset_drops` returns at a report event. -/
def reportDelta (st : AsyncLogger) : Ev → Nat
  | Ev.report => st.stats.messages_dropped
  | _ => 0

/- Sum of all values returned by `get_and_reset_drops` along a trace. -/
def resetSum : AsyncLogger → List Ev → Nat
  | _, [] => 0
  | st, e :: rest => reportDelta st e + resetSum (step st e) rest


/- ### Helper lemmas -/

lemma drainAll_handled : ∀ (q : List (Option String)) (h : List String) (s : LoggerStats),
    (drainAll h s q).1 = h ++ realMsgs q := by
  intro q
  induction q with
  | nil => intro h s; simp [drainAll, realMsgs]
  | cons x rest ih =>
      intro h s
      cases x with
      | none => simp [drainAll, realMsgs, List.filterMap_cons, ih]
      | some m => simp [drainAll, realMsgs, List.filterMap_cons, ih]

lemma drainAll_enqueued : ∀ (q : List (Option String)) (h : List String) (s : LoggerStats),
    (drainAll h s q).2.messages_enqueued = s.messages_enqueued := by
  intro q
  induction q with
  | nil => intro h s; simp [drainAll]
  | cons x rest ih =>
      intro h s
      cases x with
      | none => simp [drainAll, ih]
      | some m => simp [drainAll, ih, LoggerStats.record_processed]

lemma drainAll_dropped : ∀ (q : List (Option String)) (h : List String) (s : LoggerStats),
    (drainAll h s q).2.messages_dropped = s.messages_dropped := by
  intro q
  induction q with
  | nil => intro h s; simp [drainAll]
  | cons x rest ih =>
      intro h s
      cases x with
      | none => simp [drainAll, ih]
      | some m => simp [drainAll, ih, LoggerStats.record_processed]

lemma drainAll_processed : ∀ (q : List (Option String)) (h : List String) (s : LoggerStats),
    (drainAll h s q).2.messages_processed = s.messages_processed + (realMsgs q).length := by
  intro q
  induction q with
  | nil => intro h s; simp [drainAll, realMsgs]
  | cons x rest ih =>
      intro h s
      cases x with
      | none => simp [drainAll, realMsgs, List.filterMap_cons, ih]
      | some m =>
          simp [drainAll, realMsgs, List.filterMap_cons, ih, LoggerStats.record_processed]
          omega

lemma consumeStep_of_done (st : AsyncLogger) (h : st.consumerDone = true) :
    st.consumeStep = st := by
  simp [AsyncLogger.consumeStep, h]

lemma run_replicate_consume_done : ∀ (k : Nat) (st : AsyncLogger),
    st.consumerDone = true → run st (List.replicate k Ev.consume) = st := by
  intro k
  induction k with
  | zero => intro st _; simp [List.replicate, run]
  | succ n ih =>
      intro st h
      rw [List.replicate_succ]
      show run (step st Ev.consume) (List.replicate n Ev.consume) = st
      rw [show step st Ev.consume = st from consumeStep_of_done st h]
      exact ih st h

lemma step_enq_drop (st : AsyncLogger) (e : Ev) :
    (step st e).stats.messages_enqueued + (step st e).stats.messages_dropped
      + reportDelta st e
      = st.stats.messages_enqueued + st.stats.messages_dropped + logCount1 e := by
  cases e with
  | log m =>
      by_cases hf : st.queue_full
      · simp [step, AsyncLogger.log, hf, LoggerStats.record_drop, reportDelta, logCount1]
        omega
      · simp [step, AsyncLogger.log, hf, LoggerStats.record_enqueue, reportDelta, logCount1]
        omega
  | consume =>
      by_cases hd : st.consumerDone
      · simp [step, consumeStep_of_done st hd, reportDelta, logCount1]
      · cases hq : st.queue with
        | nil => simp [step, AsyncLogger.consumeStep, hd, hq, reportDelta, logCount1]
        | cons x rest =>
            cases x with
            | none =>
                simp [step, AsyncLogger.consumeStep, hd, hq, reportDelta, logCount1,
                  drainAll_enqueued, drainAll_dropped]
            | some m =>
                simp [step, AsyncLogger.consumeStep, hd, hq, reportDelta, logCount1,
                  LoggerStats.record_processed]
  | sentinel => simp [step, AsyncLogger.putSentinel, reportDelta, logCount1]
  | report =>
      by_cases hp : 0 < st.stats.messages_dropped
      · simp [step, AsyncLogger.emit_overflow_report, LoggerStats.get_and_reset_drops, hp,
          reportDelta, logCount1]
      · simp [step, AsyncLogger.emit_overflow_report, LoggerStats.get_and_reset_drops, hp,
          reportDelta, logCount1]
  | start => simp [step, AsyncLogger.startMark, reportDelta, logCount1]

lemma run_conserve : ∀ (evs : List Ev) (st : AsyncLogger),
    (run st evs).stats.messages_enqueued + (run st evs).stats.messages_dropped
      + resetSum st evs
      = st.stats.messages_enqueued + st.stats.messages_dropped + countLogs evs := by
  intro evs
  induction evs with
  | nil => intro st; simp [run, resetSum, countLogs]
  | cons e rest ih =>
      intro st
      show (run (step st e) rest).stats.messages_enqueued
            + (run (step st e) rest).stats.messages_dropped
            + (reportDelta st e + resetSum (step st e) rest)
          = st.stats.messages_enqueued + st.stats.messages_dropped
            + (logCount1 e + countLogs rest)
      have h1 := ih (step st e)
      have h2 := step_enq_drop st e
      omega

lemma step_handled (st : AsyncLogger) (e : Ev) :
    (step st e).handled ++ realMsgs (step st e).queue
      = st.handled ++ realMsgs st.queue ++ logAccept st e := by
  cases e with
  | log m =>
      by_cases hf : st.queue_full
      · simp [step, AsyncLogger.log, hf, logAccept]
      · simp [step, AsyncLogger.log, hf, logAccept, realMsgs, List.filterMap_append]
  | consume =>
      by_cases hd : st.consumerDone
      · simp [step, consumeStep_of_done st hd, logAccept]
      · cases hq : st.queue with
        | nil => simp [step, AsyncLogger.consumeStep, hd, hq, logAccept]
        | cons x rest =>
            cases x with
            | none =>
                simp [step, AsyncLogger.consumeStep, hd, hq, logAccept, realMsgs,
                  List.filterMap_cons, drainAll_handled]
            | some m =>
                simp [step, AsyncLogger.consumeStep, hd, hq, logAccept, realMsgs,
                  List.filterMap_cons]
  | sentinel =>
      simp [step, AsyncLogger.putSentinel, logAccept, realMsgs, List.filterMap_append]
  | report =>
      by_cases hp : 0 < st.stats.messages_dropped
      · simp [step, AsyncLogger.emit_overflow_report, LoggerStats.get_and_reset_drops, hp,
          logAccept]
      · simp [step, AsyncLogger.emit_overflow_report, LoggerStats.get_and_reset_drops, hp,
          logAccept]
  | start => simp [step, AsyncLogger.startMark, logAccept]

lemma run_handled : ∀ (evs : List Ev) (st : AsyncLogger),
    (run st evs).handled ++ realMsgs (run st evs).queue
      = st.handled ++ realMsgs st.queue ++ goodLogs st evs := by
  intro evs
  induction evs with
  | nil => intro st; simp [run, goodLogs]
  | cons e rest ih =>
      intro st
      show (run (step st e) rest).handled ++ realMsgs (run (step st e) rest).queue
          = st.handled ++ realMsgs st.queue ++ (logAccept st e ++ goodLogs (step st e) rest)
      rw [ih (step st e), step_handled st e]
      simp [List.append_assoc]

lemma goodLogs_replicate_consume : ∀ (k : Nat) (st : AsyncLogger),
    goodLogs st (List.replicate k Ev.consume) = [] := by
  intro k
  induction k with
  | zero => intro st; simp [List.replicate, goodLogs]
  | succ n ih =>
      intro st
      rw [List.replicate_succ]
      show logAccept st Ev.consume ++ goodLogs (step st Ev.consume) (List.replicate n Ev.consume) = []
      simp [logAccept, ih]

lemma drain_run : ∀ (q : List (Option String)) (st : AsyncLogger),
    st.queue = q → st.consumerDone = false → q.getLast? = some none →
    (run st (List.replicate q.length Ev.consume)).consumerDone = true
      ∧ (run st (List.replicate q.length Ev.consume)).queue = [] := by
  intro q
  induction q with
  | nil => intro st _ _ hl; simp at hl
  | cons x rest ih =>
      intro st hq hd hl
      rw [show (x :: rest).length = rest.length + 1 from rfl, List.replicate_succ]
      show (run (step st Ev.consume) (List.replicate rest.length Ev.consume)).consumerDone = true
          ∧ (run (step st Ev.consume) (List.replicate rest.length Ev.consume)).queue = []
      cases x with
      | none =>
          have hs : (step st Ev.consume).consumerDone = true ∧ (step st Ev.consume).queue = [] := by
            simp [step, AsyncLogger.consumeStep, hd, hq]
          rw [run_replicate_consume_done rest.length _ hs.1]
          exact hs
      | some m =>
          have hs : (step st Ev.consume).consumerDone = false
              ∧ (step st Ev.consume).queue = rest := by
            simp [step, AsyncLogger.consumeStep, hd, hq]
          cases rest with
          | nil => simp at hl
          | cons y t =>
              have hl2 : (y :: t).getLast? = some none := by
                rw [List.getLast?_cons_cons] at hl
                exact hl
              exact ih (step st Ev.consume) hs.2 hs.1 hl2

lemma step_lag (st : AsyncLogger) (e : Ev)
    (h : st.stats.messages_processed + (realMsgs st.queue).length
          = st.stats.messages_enqueued) :
    (step st e).stats.messages_processed + (realMsgs (step st e).queue).length
      = (step st e).stats.messages_enqueued := by
  cases e with
  | log m =>
      by_cases hf : st.queue_full
      · simpa [step, AsyncLogger.log, hf, LoggerStats.record_drop] using h
      · simp [step, AsyncLogger.log, hf, LoggerStats.record_enqueue, realMsgs,
          List.filterMap_append] at h ⊢
        omega
  | consume =>
      by_cases hd : st.consumerDone
      · simpa [step, consumeStep_of_done st hd] using h
      · cases hq : st.queue with
        | nil => simpa [step, AsyncLogger.consumeStep, hd, hq] using h
        | cons x rest =>
            rw [hq] at h
            cases x with
            | none =>
                simp [step, AsyncLogger.consumeStep, hd, hq, drainAll_processed,
                  drainAll_enqueued, realMsgs, List.filterMap_cons] at h ⊢
                omega
            | some m =>
                simp [step, AsyncLogger.consumeStep, hd, hq,
                  LoggerStats.record_processed, realMsgs, List.filterMap_cons] at h ⊢
                omega
  | sentinel =>
      simpa [step, AsyncLogger.putSentinel, realMsgs, List.filterMap_append] using h
  | report =>
      by_cases hp : 0 < st.stats.messages_dropped
      · simpa [step, AsyncLogger.emit_overflow_report, LoggerStats.get_and_reset_drops,
          hp] using h
      · simpa [step, AsyncLogger.emit_overflow_report, LoggerStats.get_and_reset_drops,
          hp] using h
  | start => simpa [step, AsyncLogger.startMark] using h

lemma run_lag : ∀ (evs : List Ev) (st : AsyncLogger),
    st.stats.messages_processed + (realMsgs st.queue).length = st.stats.messages_enqueued →
    (run st evs).stats.messages_processed + (realMsgs (run st evs).queue).length
      = (run st evs).stats.messages_enqueued := by
  intro evs
  induction evs with
  | nil => intro st h; exact h
  | cons e rest ih =>
      intro st h
      exact ih (step st e) (step_lag st e h)

lemma step_proc_handled (st : AsyncLogger) (e : Ev)
    (h : st.stats.messages_processed = st.handled.length) :
    (step st e).stats.messages_processed = (step st e).handled.length := by
  cases e with
  | log m =>
      by_cases hf : st.queue_full
      · simpa [step, AsyncLogger.log, hf, LoggerStats.record_drop] using h
      · simpa [step, AsyncLogger.log, hf, LoggerStats.record_enqueue] using h
  | consume =>
      by_cases hd : st.consumerDone
      · simpa [step, consumeStep_of_done st hd] using h
      · cases hq : st.queue with
        | nil => simpa [step, AsyncLogger.consumeStep, hd, hq] using h
        | cons x rest =>
            cases x with
            | none =>
                simp [step, AsyncLogger.consumeStep, hd, hq, drainAll_processed,
                  drainAll_handled, h]
            | some m =>
                simp [step, AsyncLogger.consumeStep, hd, hq,
                  LoggerStats.record_processed, h]
  | sentinel => simpa [step, AsyncLogger.putSentinel] using h
  | report =>
      by_cases hp : 0 < st.stats.messages_dropped
      · simpa [step, AsyncLogger.emit_overflow_report, LoggerStats.get_and_reset_drops,
          hp] using h
      · simpa [step, AsyncLogger.emit_overflow_report, LoggerStats.get_and_reset_drops,
          hp] using h
  | start => simpa [step, AsyncLogger.startMark] using h

lemma run_proc_handled : ∀ (evs : List Ev) (st : AsyncLogger),
    st.stats.messages_processed = st.handled.length →
    (run st evs).stats.messages_processed = (run st evs).handled.length := by
  intro evs
  induction evs with
  | nil => intro st h; exact h
  | cons e rest ih =>
      intro st h
      exact ih (step st e) (step_proc_handled st e h)

lemma step_mono (st : AsyncLogger) (e : Ev) :
    st.stats.messages_processed ≤ (step st e).stats.messages_processed
      ∧ st.stats.messages_enqueued ≤ (step st e).stats.messages_enqueued
      ∧ (e = Ev.report ∨ st.stats.messages_dropped ≤ (step st e).stats.messages_dropped) := by
  cases e with
  | log m =>
      by_cases hf : st.queue_full
      · simp [step, AsyncLogger.log, hf, LoggerStats.record_drop]
      · simp [step, AsyncLogger.log, hf, LoggerStats.record_enqueue]
  | consume =>
      by_cases hd : st.consumerDone
      · simp [step, consumeStep_of_done st hd]
      · cases hq : st.queue with
        | nil => simp [step, AsyncLogger.consumeStep, hd, hq]
        | cons x rest =>
            cases x with
            | none =>
                simp [step, AsyncLogger.consumeStep, hd, hq, drainAll_processed,
                  drainAll_enqueued, drainAll_dropped]
            | some m =>
                simp [step, AsyncLogger.consumeStep, hd, hq, LoggerStats.record_processed]
  | sentinel => simp [step, AsyncLogger.putSentinel]
  | report =>
      by_cases hp : 0 < st.stats.messages_dropped
      · simp [step, AsyncLogger.emit_overflow_report, LoggerStats.get_and_reset_drops, hp]
      · simp [step, AsyncLogger.emit_overflow_report, LoggerStats.get_and_reset_drops, hp]
  | start => simp [step, AsyncLogger.startMark]

lemma run_append : ∀ (a b : List Ev) (st : AsyncLogger),
    run st (a ++ b) = run (run st a) b := by
  intro a
  induction a with
  | nil => intro b st; rfl
  | cons e rest ih =>
      intro b st
      show run (step st e) (rest ++ b) = run (run (step st e) rest) b
      exact ih b (step st e)

lemma step_maxsize (st : AsyncLogger) (e : Ev) : (step st e).maxsize = st.maxsize := by
  cases e with
  | log m =>
      by_cases hf : st.queue_full <;> simp [step, AsyncLogger.log, hf]
  | consume =>
      by_cases hd : st.consumerDone
      · simp [step, consumeStep_of_done st hd]
      · cases hq : st.queue with
        | nil => simp [step, AsyncLogger.consumeStep, hd, hq]
        | cons x rest =>
            cases x with
            | none => simp [step, AsyncLogger.consumeStep, hd, hq]
            | some m => simp [step, AsyncLogger.consumeStep, hd, hq]
  | sentinel => simp [step, AsyncLogger.putSentinel]
  | report =>
      by_cases hp : 0 < st.stats.messages_dropped <;>
        simp [step, AsyncLogger.emit_overflow_report, LoggerStats.get_and_reset_drops, hp]
  | start => simp [step, AsyncLogger.startMark]

lemma run_maxsize : ∀ (evs : List Ev) (st : AsyncLogger),
    (run st evs).maxsize = st.maxsize := by
  intro evs
  induction evs with
  | nil => intro st; rfl
  | cons e rest ih =>
      intro st
      show (run (step st e) rest).maxsize = st.maxsize
      rw [ih (step st e), step_maxsize]

lemma run_logs_stats : ∀ (ms : List String) (c : Nat), 0 < c →
    (run (AsyncLogger.init c) (ms.map Ev.log)).stats.messages_enqueued = min ms.length c
  ∧ (run (AsyncLogger.init c) (ms.map Ev.log)).stats.messages_dropped = ms.length - c
  ∧ (run (AsyncLogger.init c) (ms.map Ev.log)).queue.length = min ms.length c
  ∧ (run (AsyncLogger.init c) (ms.map Ev.log)).warnings = [] := by
  intro ms
  induction ms using List.reverseRecOn with
  | nil => intro c hc; simp [run, AsyncLogger.init]
  | append_singleton l a ih =>
      intro c hc
      have hprev := ih c hc
      have hmax : (run (AsyncLogger.init c) (l.map Ev.log)).maxsize = c := by
        rw [run_maxsize]
        rfl
      rw [List.map_append, run_append]
      set prev := run (AsyncLogger.init c) (l.map Ev.log) with hprevdef
      show ((run prev [Ev.log a]).stats.messages_enqueued = min (l ++ [a]).length c)
        ∧ ((run prev [Ev.log a]).stats.messages_dropped = (l ++ [a]).length - c)
        ∧ ((run prev [Ev.log a]).queue.length = min (l ++ [a]).length c)
        ∧ ((run prev [Ev.log a]).warnings = [])
      have hrun1 : run prev [Ev.log a] = prev.log a := rfl
      rw [hrun1]
      by_cases hle : c ≤ l.length
      · have hfull : prev.queue_full = true := by
          rw [AsyncLogger.queue_full, hmax, hprev.2.2.1]
          simp
          omega
        simp [AsyncLogger.log, hfull, LoggerStats.record_drop, hprev.1, hprev.2.1,
          hprev.2.2.1, hprev.2.2.2]
        constructor
        · omega
        constructor
        · omega
        · omega
      · have hfull : prev.queue_full = false := by
          rw [AsyncLogger.queue_full, hmax, hprev.2.2.1]
          simp
          omega
        simp [AsyncLogger.log, hfull, LoggerStats.record_enqueue, hprev.1, hprev.2.1,
          hprev.2.2.1, hprev.2.2.2]
        constructor
        · omega
        constructor
        · omega
        · omega

/- ### Claim theorems -/

/-- Claim C1 (conservation law): along any finite execution trace from a
freshly constructed logger, `messages_enqueued` plus the cumulative drops
ever recorded — the current `messages_dropped` plus the sum of all values
previously returned by `get_and_reset_drops` — equals the total number of
`log()` calls made.  Quantifying over all traces makes this hold at every
observation point. -/
theorem conservation_law (c : Nat) (evs : List Ev) :
    (run (AsyncLogger.init c) evs).stats.messages_enqueued
      + ((run (AsyncLogger.init c) evs).stats.messages_dropped
          + resetSum (AsyncLogger.init c) evs)
      = countLogs evs := by
  have h := run_conserve evs (AsyncLogger.init c)
  have h0 : (AsyncLogger.init c).stats.messages_enqueued = 0 := rfl
  have h1 : (AsyncLogger.init c).stats.messages_dropped = 0 := rfl
  rw [h0, h1] at h
  omega

/-- Claim C3 (report cycle correctness): `_emit_overflow_report` — the body
of every report cycle, reached from a periodic `_report_overflow` wake-up
or from the final report inside `stop()` — reads and resets the drop
counter, so `messages_dropped = 0` immediately afterwards; when the drained
count is positive it appends exactly one warning, the string
`⚠️ Logger overflow: N messages dropped due to buffer full` containing that
exact count N, and when the drained count is zero it emits nothing. -/
theorem report_cycle_correct (st : AsyncLogger) :
    (st.emit_overflow_report).stats.messages_dropped = 0
  ∧ (0 < st.stats.messages_dropped →
      (st.emit_overflow_report).warnings
        = st.warnings ++ [overflowWarning st.stats.messages_dropped])
  ∧ (st.stats.messages_dropped = 0 →
      (st.emit_overflow_report).warnings = st.warnings) := by
  refine ⟨?_, ?_, ?_⟩
  · by_cases hp : 0 < st.stats.messages_dropped <;>
      simp [AsyncLogger.emit_overflow_report, LoggerStats.get_and_reset_drops, hp]
  · intro hp
    simp [AsyncLogger.emit_overflow_report, LoggerStats.get_and_reset_drops, hp]
  · intro hz
    simp [AsyncLogger.emit_overflow_report, LoggerStats.get_and_reset_drops, hz]

theorem report_cycle_correct_witness :
    ((run (AsyncLogger.init 1) [Ev.log "a", Ev.log "b", Ev.log "c", Ev.log "d"]).emit_overflow_report).warnings
        = (run (AsyncLogger.init 1) [Ev.log "a", Ev.log "b", Ev.log "c", Ev.log "d"]).warnings
          ++ [overflowWarning
                (run (AsyncLogger.init 1) [Ev.log "a", Ev.log "b", Ev.log "c", Ev.log "d"]).stats.messages_dropped]
  ∧ ((AsyncLogger.init 1).emit_overflow_report).warnings = (AsyncLogger.init 1).warnings
  ∧ ((run (AsyncLogger.init 1) [Ev.log "a", Ev.log "b", Ev.log "c", Ev.log "d"]).emit_overflow_report).stats.messages_dropped = 0 :=
  ⟨(report_cycle_correct _).2.1 (by decide),
   (report_cycle_correct _).2.2 (by decide),
   (report_cycle_correct _).1⟩

/-- Claim C4: `log(message)` is modelled as a total function — the
`QueueFull` exception is caught inside `log` and `put_nowait` never blocks,
so nothing is raised to the caller.  When the queue is below capacity the
message is appended to the queue and `messages_enqueued` increments by
exactly one with `messages_dropped` unchanged; when the queue is at
capacity the message is discarded and `messages_dropped` increments by
exactly one with `messages_enqueued` unchanged. -/
theorem log_cases (st : AsyncLogger) (m : String) :
    (st.queue_full = false →
        (st.log m).stats.messages_enqueued = st.stats.messages_enqueued + 1
      ∧ (st.log m).stats.messages_dropped = st.stats.messages_dropped
      ∧ (st.log m).queue = st.queue ++ [some m])
  ∧ (st.queue_full = true →
        (st.log m).stats.messages_dropped = st.stats.messages_dropped + 1
      ∧ (st.log m).stats.messages_enqueued = st.stats.messages_enqueued
      ∧ (st.log m).queue = st.queue) := by
  constructor
  · intro hf
    simp [AsyncLogger.log, hf, LoggerStats.record_enqueue]
  · intro hf
    simp [AsyncLogger.log, hf, LoggerStats.record_drop]

theorem log_cases_witness :
    (((AsyncLogger.init 1).log "m").stats.messages_enqueued
        = (AsyncLogger.init 1).stats.messages_enqueued + 1
      ∧ ((AsyncLogger.init 1).log "m").stats.messages_dropped
        = (AsyncLogger.init 1).stats.messages_dropped)
  ∧ (((run (AsyncLogger.init 1) [Ev.log "a"]).log "m").stats.messages_dropped
        = (run (AsyncLogger.init 1) [Ev.log "a"]).stats.messages_dropped + 1
      ∧ ((run (AsyncLogger.init 1) [Ev.log "a"]).log "m").stats.messages_enqueued
        = (run (AsyncLogger.init 1) [Ev.log "a"]).stats.messages_enqueued) :=
  ⟨⟨((log_cases (AsyncLogger.init 1) "m").1 (by decide)).1,
    ((log_cases (AsyncLogger.init 1) "m").1 (by decide)).2.1⟩,
   ⟨((log_cases (run (AsyncLogger.init 1) [Ev.log "a"]) "m").2 (by decide)).1,
    ((log_cases (run (AsyncLogger.init 1) [Ev.log "a"]) "m").2 (by decide)).2.1⟩⟩

/-- Claim C6 (idempotent drain-read): `get_and_reset_drops()` returns the
pre-reset drop count and leaves `messages_dropped` at zero; hence a second
call with no intervening `record_drop()` returns zero (and again leaves the
counter at zero). -/
theorem drain_read_idempotent (s : LoggerStats) :
    (s.get_and_reset_drops).1 = s.messages_dropped
  ∧ (s.get_and_reset_drops).2.messages_dropped = 0
  ∧ ((s.get_and_reset_drops).2.get_and_reset_drops).1 = 0
  ∧ ((s.get_and_reset_drops).2.get_and_reset_drops).2.messages_dropped = 0 := by
  simp [LoggerStats.get_and_reset_drops]

/-- Claim C8 counterexample: `AsyncLogger.__init__` has no `report_interval`
parameter.  Its parameter list (besides `self`) is exactly
`maxsize, handler`; the reporting interval is the module-level constant
`OVERFLOW_REPORT_INTERVAL`, not configurable at construction. -/
theorem report_interval_not_a_parameter :
    init_param_names.contains "report_interval" = false := by decide

/-- Claim C8 amended: the logger is constructed with a `maxsize` capacity
parameter (default `DEFAULT_QUEUE_SIZE = 10,000`) and an optional `handler`
parameter (function taking one string); the report interval is not a
construction parameter but the module-level constant
`OVERFLOW_REPORT_INTERVAL = 5.0` seconds, which determines how often
accumulated drops are reported. -/
theorem construction_interface :
    init_param_names = ["maxsize", "handler"]
  ∧ DEFAULT_QUEUE_SIZE = 10000
  ∧ OVERFLOW_REPORT_INTERVAL = 5
  ∧ (AsyncLogger.init DEFAULT_QUEUE_SIZE).maxsize = 10000
  ∧ init_param_names.contains "report_interval" = false := by
  refine ⟨rfl, rfl, rfl, rfl, by decide⟩

/-- Claim C10 (frame of the drain-read): `get_and_reset_drops` leaves
`messages_enqueued` and `messages_processed` unchanged, and
`_emit_overflow_report` additionally leaves the queue and the handler
trace unchanged — only `messages_dropped` (and the warning trace) is
modified. -/
theorem drain_read_frame (s : LoggerStats) (st : AsyncLogger) :
    (s.get_and_reset_drops).2.messages_enqueued = s.messages_enqueued
  ∧ (s.get_and_reset_drops).2.messages_processed = s.messages_processed
  ∧ (st.emit_overflow_report).stats.messages_enqueued = st.stats.messages_enqueued
  ∧ (st.emit_overflow_report).stats.messages_processed = st.stats.messages_processed
  ∧ (st.emit_overflow_report).queue = st.queue
  ∧ (st.emit_overflow_report).handled = st.handled := by
  refine ⟨rfl, rfl, ?_, ?_, ?_, ?_⟩ <;>
    by_cases hp : 0 < st.stats.messages_dropped <;>
      simp [AsyncLogger.emit_overflow_report, LoggerStats.get_and_reset_drops, hp]

lemma stop_drain_general (st : AsyncLogger) (h : st.consumerDone = false) :
    (run st (Ev.sentinel :: List.replicate (st.queue.length + 1) Ev.consume)).consumerDone = true
  ∧ (run st (Ev.sentinel :: List.replicate (st.queue.length + 1) Ev.consume)).queue = []
  ∧ (run st (Ev.sentinel :: List.replicate (st.queue.length + 1) Ev.consume)).handled
      = st.handled ++ realMsgs st.queue := by
  have hstep : step st Ev.sentinel
      = { st with running := false, queue := st.queue ++ [none] } := rfl
  have hrun : run st (Ev.sentinel :: List.replicate (st.queue.length + 1) Ev.consume)
      = run (step st Ev.sentinel) (List.replicate (st.queue.length + 1) Ev.consume) := rfl
  rw [hrun]
  have hq : (step st Ev.sentinel).queue = st.queue ++ [none] := by rw [hstep]
  have hd : (step st Ev.sentinel).consumerDone = false := by rw [hstep]; exact h
  have hlen : st.queue.length + 1 = ((step st Ev.sentinel).queue).length := by
    rw [hq]; simp
  have hlast : ((step st Ev.sentinel).queue).getLast? = some none := by
    rw [hq]; simp
  have hdt := drain_run ((step st Ev.sentinel).queue) (step st Ev.sentinel) rfl hd hlast
  rw [← hlen] at hdt
  refine ⟨hdt.1, hdt.2, ?_⟩
  have hh := run_handled (List.replicate (st.queue.length + 1) Ev.consume)
    (step st Ev.sentinel)
  rw [goodLogs_replicate_consume, hdt.2] at hh
  rw [hq] at hh
  have hsh : (step st Ev.sentinel).handled = st.handled := by rw [hstep]
  rw [hsh] at hh
  simpa [realMsgs, List.filterMap_append] using hh

/-- Claim C2 (drain completeness and FIFO order on stop): take any
execution `evs` after which the consumer has not yet exited its loop
(`consumerDone = false`, as for a started logger before `stop()`).
`stop()` then puts the close sentinel and awaits the consumer task; after
at most `queue.length + 1` further consumer iterations the consumer has
exited, the queue is empty, and the complete handler trace equals
`goodLogs` — the list of all successfully enqueued messages in enqueue
order.  Hence every message successfully enqueued before `stop()` has been
passed to the handler exactly once, in strict FIFO order of enqueue. -/
theorem stop_drain_complete (c : Nat) (evs : List Ev)
    (h : (run (AsyncLogger.init c) evs).consumerDone = false) :
    (run (run (AsyncLogger.init c) evs)
        (Ev.sentinel :: List.replicate
          ((run (AsyncLogger.init c) evs).queue.length + 1) Ev.consume)).consumerDone = true
  ∧ (run (run (AsyncLogger.init c) evs)
        (Ev.sentinel :: List.replicate
          ((run (AsyncLogger.init c) evs).queue.length + 1) Ev.consume)).queue = []
  ∧ (run (run (AsyncLogger.init c) evs)
        (Ev.sentinel :: List.replicate
          ((run (AsyncLogger.init c) evs).queue.length + 1) Ev.consume)).handled
      = goodLogs (AsyncLogger.init c) evs := by
  have hg := stop_drain_general (run (AsyncLogger.init c) evs) h
  refine ⟨hg.1, hg.2.1, ?_⟩
  rw [hg.2.2]
  have h2 := run_handled evs (AsyncLogger.init c)
  have h3 : (AsyncLogger.init c).handled = [] := rfl
  have h4 : realMsgs (AsyncLogger.init c).queue = [] := rfl
  rw [h3, h4] at h2
  simpa using h2

theorem stop_drain_complete_witness :
    (run (AsyncLogger.init 2) [Ev.log "a", Ev.log "b", Ev.log "c"]).consumerDone = false
  ∧ (run (run (AsyncLogger.init 2) [Ev.log "a", Ev.log "b", Ev.log "c"])
        (Ev.sentinel :: List.replicate
          ((run (AsyncLogger.init 2) [Ev.log "a", Ev.log "b", Ev.log "c"]).queue.length + 1)
          Ev.consume)).handled
      = goodLogs (AsyncLogger.init 2) [Ev.log "a", Ev.log "b", Ev.log "c"] :=
  ⟨by decide,
   (stop_drain_complete 2 [Ev.log "a", Ev.log "b", Ev.log "c"] (by decide)).2.2⟩

/-- Claim C5 (overflow with the consumer never started): for capacity
c > 0 and a trace consisting only of n = `ms.length` ≥ c `log()` calls (no
consumer or reporter events ran, as when the logger was never started),
`messages_enqueued = c` and `messages_dropped = n - c`; moreover when
n > c, triggering a report cycle then emits exactly one warning whose text
contains the exact count n - c.  The witness instantiates the spec's
scenarios: capacity 10 with 100 calls gives 10 enqueued, 90 dropped and a
warning containing "90" (capacity 5 with 20 calls follows the same way). -/
theorem overflow_never_started (c : Nat) (ms : List String)
    (hc : 0 < c) (hn : c ≤ ms.length) :
    (run (AsyncLogger.init c) (ms.map Ev.log)).stats.messages_enqueued = c
  ∧ (run (AsyncLogger.init c) (ms.map Ev.log)).stats.messages_dropped = ms.length - c
  ∧ (c < ms.length →
      (step (run (AsyncLogger.init c) (ms.map Ev.log)) Ev.report).warnings
        = [overflowWarning (ms.length - c)]) := by
  have h := run_logs_stats ms c hc
  refine ⟨?_, h.2.1, ?_⟩
  · rw [h.1]
    omega
  · intro hlt
    have hpos : 0 < (run (AsyncLogger.init c) (ms.map Ev.log)).stats.messages_dropped := by
      rw [h.2.1]
      omega
    simp [step, AsyncLogger.emit_overflow_report, LoggerStats.get_and_reset_drops, hpos,
      hlt, h.2.1, h.2.2.2]

theorem overflow_never_started_witness :
    0 < 10
  ∧ 10 ≤ (List.replicate 100 "m").length
  ∧ (run (AsyncLogger.init 10) ((List.replicate 100 "m").map Ev.log)).stats.messages_enqueued = 10
  ∧ (run (AsyncLogger.init 10) ((List.replicate 100 "m").map Ev.log)).stats.messages_dropped = 90
  ∧ (step (run (AsyncLogger.init 10) ((List.replicate 100 "m").map Ev.log)) Ev.report).warnings
      = ["⚠️ Logger overflow: " ++ "90" ++ " messages dropped due to buffer full"] := by
  have h := overflow_never_started 10 (List.replicate 100 "m") (by decide) (by decide)
  refine ⟨by decide, by decide, h.1, ?_, ?_⟩
  · rw [h.2.1]
    decide
  · rw [h.2.2 (by decide)]
    decide

/-- Claim C7 (consumer-lag invariant): in every reachable state of a
logger, `messages_processed ≤ messages_enqueued`; both `messages_processed`
and `messages_enqueued` are non-decreasing under every single operation;
and every operation other than a report cycle — the only caller of the
drain-read `get_and_reset_drops` — leaves `messages_dropped`
non-decreasing as well. -/
theorem consumer_lag_invariant (c : Nat) (evs : List Ev) (e : Ev) :
    (run (AsyncLogger.init c) evs).stats.messages_processed
        ≤ (run (AsyncLogger.init c) evs).stats.messages_enqueued
  ∧ (run (AsyncLogger.init c) evs).stats.messages_processed
        ≤ (step (run (AsyncLogger.init c) evs) e).stats.messages_processed
  ∧ (run (AsyncLogger.init c) evs).stats.messages_enqueued
        ≤ (step (run (AsyncLogger.init c) evs) e).stats.messages_enqueued
  ∧ (e = Ev.report
      ∨ (run (AsyncLogger.init c) evs).stats.messages_dropped
          ≤ (step (run (AsyncLogger.init c) evs) e).stats.messages_dropped) := by
  have hlag := run_lag evs (AsyncLogger.init c) (by rfl)
  have hm := step_mono (run (AsyncLogger.init c) evs) e
  exact ⟨by omega, hm.1, hm.2.1, hm.2.2⟩

/-- Claim C9: the handler is never invoked with the close sentinel — both
call sites in `_consume` dispatch only values checked to be non-`None`, so
the handler trace has type `List String` and, by the second conjunct, every
string passed to the handler is one of the successfully enqueued messages
(the trace is a prefix of `goodLogs`).  The first conjunct states that
`messages_processed` equals the number of handler invocations: processed is
incremented exactly once per invocation, and sentinels are never counted
even if several sentinels are enqueued during the trace. -/
theorem handler_sentinel_free (c : Nat) (evs : List Ev) :
    (run (AsyncLogger.init c) evs).stats.messages_processed
        = (run (AsyncLogger.init c) evs).handled.length
  ∧ ∃ rest, (run (AsyncLogger.init c) evs).handled ++ rest
        = goodLogs (AsyncLogger.init c) evs := by
  constructor
  · exact run_proc_handled evs (AsyncLogger.init c) (by rfl)
  · refine ⟨realMsgs (run (AsyncLogger.init c) evs).queue, ?_⟩
    have h2 := run_handled evs (AsyncLogger.init c)
    have h3 : (AsyncLogger.init c).handled = [] := rfl
    have h4 : realMsgs (AsyncLogger.init c).queue = [] := rfl
    rw [h3, h4] at h2
    simpa using h2
